import Mathlib

/-!
Shallow embedding of `folder_scanner.py`, a command-line folder statistics
tool.  The filesystem is abstracted as the list of entries produced by the
recursive traversal (`folder.rglob('*')`): each entry carries its base
filename, its full path, whether it is a regular file, and the result of its
metadata query (`item.stat().st_size`), which either yields a byte size or
fails with an OS error message.  The Python behaviours the tool relies on are
modelled exactly where they matter: `pathlib.Path.suffix` (last-dot slicing
with its boundary conditions), truthiness of the optional filter arguments
(`None`, the empty string and integer `0` are all falsy), `int(...)` parsing
of the `--min-size` value, and the float arithmetic of `format_size`.  For
the latter: the loop's first test compares the exact integer (CPython
compares an int to a float exactly, without converting); if it fails, the
first division converts the integer to an IEEE double, rounding it half to
even to 53 significant bits (`pyFloat`, an integer because the unit in the
last place is at least 1) and raising OverflowError when the rounded value
reaches 2 to the 1024th power; afterwards every division by 1024.0 merely
shifts the exponent and every comparison is exact, so the float after k
divisions is exactly `pyFloat n / 1024 ^ k`, represented by the pair
(pyFloat n, k); the `:.2f` rendering is round-half-even to two decimals of
that exact value, matching Python's correctly-rounded float formatting.
-/

set_option linter.unnecessarySeqFocus false
set_option maxRecDepth 8192
set_option exponentiation.threshold 2000

deriving instance DecidableEq for Except

namespace FolderScanner

/-- One entry of the recursive directory traversal (`folder.rglob('*')`):
`name` is the base filename (`item.name`), `path` the full path string
(`str(item)`), `isFile` the result of `item.is_file()`, and `stat` the
outcome of the metadata query `item.stat().st_size` (a size, or a
`PermissionError`/`OSError` message). -/
structure Entry where
  name : String
  path : String
  isFile : Bool
  stat : Except String Nat
deriving DecidableEq

/-- The size reported by a successful metadata query (0 for a failed one;
failed entries are never counted, so the default is never observed). -/
def statSize (e : Entry) : Nat :=
  match e.stat with
  | Except.ok s => s
  | Except.error _ => 0

/-- The accumulator built by `scan_folder` (lines 52-57 of the source):
`total_files`, `total_size`, `largest_file`, `largest_size`, the two
insertion-ordered dictionaries `file_types` and `file_type_sizes`
(Python dicts preserve insertion order), and the warnings printed for
entries whose metadata query failed. -/
structure ScanState where
  totalFiles : Nat
  totalSize : Nat
  largestFile : Option Entry
  largestSize : Nat
  fileTypes : List (String × Nat)
  fileTypeSizes : List (String × Nat)
  warnings : List String
deriving DecidableEq

/-- The initial statistics (lines 52-57). -/
def initState : ScanState :=
  { totalFiles := 0, totalSize := 0, largestFile := none, largestSize := 0,
    fileTypes := [], fileTypeSizes := [], warnings := [] }

/-- Index of the last `'.'` in a character list: models Python's
`name.rfind('.')`, with `none` in place of `-1`. -/
def rfindDot : List Char → Option Nat
  | [] => none
  | c :: cs =>
    match rfindDot cs with
    | some i => some (i + 1)
    | none => if c = '.' then some 0 else none

/-- Models `pathlib.PurePath.suffix`: with `i = name.rfind('.')`, the slice
`name[i:]` when `0 < i < len(name) - 1`, and the empty string otherwise
(so a leading-dot-only name such as `.bashrc` and a name ending in `.`
both have an empty suffix). -/
def pySuffix (name : String) : String :=
  match rfindDot name.data with
  | none => ""
  | some i =>
    if 0 < i ∧ i + 1 < name.data.length then String.mk (name.data.drop i) else ""

/-- `str.lower()` on ASCII content: lowercase every character. -/
def pyLower (s : String) : String :=
  String.mk (s.data.map Char.toLower)

/-- `str.startswith('.')`. -/
def pyStartsWithDot (s : String) : Bool :=
  match s.data with
  | '.' :: _ => true
  | _ => false

/-- Line 71 of the source:
`extension = item.suffix.lower() if item.suffix else '.no-extension'`
(the empty string is falsy). -/
def entryExtension (name : String) : String :=
  if pySuffix name = "" then ".no-extension" else pyLower (pySuffix name)

/-- Lines 38-41 of the source: a truthy (non-`None`, non-empty) extension
filter gets a leading dot prepended when missing and is lowercased. -/
def normalize_filter : Option String → Option String
  | none => none
  | some s =>
    if s = "" then some s
    else some (pyLower (if pyStartsWithDot s then s else "." ++ s))

/-- Line 76: `if filter_extension and extension != filter_extension`. -/
def extSkips (fe : Option String) (extension : String) : Bool :=
  match fe with
  | none => false
  | some s => !s.isEmpty && extension != s

/-- Line 80: `if min_size and file_size < min_size` (Python's `int` 0 is
falsy, so `min_size = 0` disables the filter). -/
def sizeSkips (ms : Option Int) (file_size : Nat) : Bool :=
  match ms with
  | none => false
  | some m => m != 0 && decide ((file_size : Int) < m)

/-- An entry that reaches lines 82-92 and is counted: a regular file whose
metadata query succeeded and which neither gate skipped. -/
def counted (fe : Option String) (ms : Option Int) (e : Entry) : Bool :=
  e.isFile &&
    match e.stat with
    | Except.ok s => !extSkips fe (entryExtension e.name) && !sizeSkips ms s
    | Except.error _ => false

/-- A regular file that both filters let through (sizes read via
`statSize`); on error-free traversals this coincides with `counted`. -/
def passesFilters (fe : Option String) (ms : Option Int) (e : Entry) : Bool :=
  e.isFile && !extSkips fe (entryExtension e.name) && !sizeSkips ms (statSize e)

/-- `defaultdict(int)` update `d[k] += v` on an insertion-ordered
association list: existing key updated in place, new key appended. -/
def bump (l : List (String × Nat)) (k : String) (v : Nat) : List (String × Nat) :=
  match l with
  | [] => [(k, v)]
  | (k2, v2) :: rest => if k2 = k then (k2, v2 + v) :: rest else (k2, v2) :: bump rest k v

/-- Lines 82-92: the updates applied to a counted file.  The largest-file
check (line 86) compares `file_size` against the pre-update `largest_size`,
and the dictionary bumps commute with it, so the two branches below are the
code's updates verbatim. -/
def updateCounted (st : ScanState) (e : Entry) (file_size : Nat) : ScanState :=
  if st.largestSize < file_size then
    { st with
      totalFiles := st.totalFiles + 1
      totalSize := st.totalSize + file_size
      largestSize := file_size
      largestFile := some e
      fileTypes := bump st.fileTypes (entryExtension e.name) 1
      fileTypeSizes := bump st.fileTypeSizes (entryExtension e.name) file_size }
  else
    { st with
      totalFiles := st.totalFiles + 1
      totalSize := st.totalSize + file_size
      fileTypes := bump st.fileTypes (entryExtension e.name) 1
      fileTypeSizes := bump st.fileTypeSizes (entryExtension e.name) file_size }

/-- The body of the traversal loop, lines 67-95, for one entry: non-files
are skipped; a failed metadata query prints a warning and touches nothing
else; otherwise the two filter gates may skip the entry before any counter
is updated. -/
def processEntry (fe : Option String) (ms : Option Int) (st : ScanState) (e : Entry) : ScanState :=
  if e.isFile then
    match e.stat with
    | Except.error msg =>
      { st with warnings := st.warnings ++ ["Warning: Could not access " ++ e.path ++ ": " ++ msg] }
    | Except.ok file_size =>
      if extSkips fe (entryExtension e.name) then st
      else if sizeSkips ms file_size then st
      else updateCounted st e file_size
  else st

/-- `scan_folder` (lines 27-108) over the abstract traversal: normalize the
extension filter, then fold the loop body over the entries in traversal
order.  (The existence/directory checks on the root and the echoed filter
fields of the returned dict are outside the accumulator and not modelled.) -/
def scan_folder (entries : List Entry) (filter_extension : Option String)
    (min_size : Option Int) : ScanState :=
  entries.foldl (processEntry (normalize_filter filter_extension) min_size) initState

/-- The statistics accumulators of a scan state (everything except the
warning log). -/
def accumulators (st : ScanState) :
    Nat × Nat × Option Entry × Nat × List (String × Nat) × List (String × Nat) :=
  (st.totalFiles, st.totalSize, st.largestFile, st.largestSize, st.fileTypes, st.fileTypeSizes)

/-- Sum of the values of an association list. -/
def sumVals (l : List (String × Nat)) : Nat :=
  (l.map (fun p => p.2)).sum

/-- Maximum metadata size over a list of entries, 0 when empty (the initial
value of `largest_size`). -/
def maxStat (l : List Entry) : Nat :=
  l.foldr (fun e m => max (statSize e) m) 0

/-- Stable insertion of an element into a count-descending list: walk past
strictly greater counts, so an inserted element precedes later-inserted
elements of equal count. -/
def insertDesc (x : String × Nat) : List (String × Nat) → List (String × Nat)
  | [] => [x]
  | y :: ys => if x.2 < y.2 then y :: insertDesc x ys else x :: y :: ys

/-- Stable sort by descending count: models line 146-148 of the source,
`sorted(stats['file_types'].items(), key=lambda x: x[1], reverse=True)`
(Python's sort is stable, and `reverse=True` keeps equal keys in their
original order). -/
def sortByCountDesc : List (String × Nat) → List (String × Nat)
  | [] => []
  | x :: xs => insertDesc x (sortByCountDesc xs)

/-- Dictionary lookup `stats['file_type_sizes'][ext]` (line 151); in every
scan result the key is present, so the default 0 is never observed. -/
def dictGet (l : List (String × Nat)) (k : String) : Nat :=
  match l.find? (fun p => p.1 = k) with
  | some p => p.2
  | none => 0

/-- The data of the FILE TYPES BREAKDOWN rows (lines 146-152): one row per
extension, in sorted order, carrying the extension, its count, and its
total size. -/
def breakdownRows (fileTypes fileTypeSizes : List (String × Nat)) :
    List (String × Nat × Nat) :=
  (sortByCountDesc fileTypes).map (fun p => (p.1, p.2, dictGet fileTypeSizes p.1))

/-- Render the exact dyadic value n / 1024 to the k-th power with exactly
two decimals, rounding half to even: this is what `f"{x:.2f}"` prints for
a float (or, at k = 0, an int) whose exact mathematical value is
n / 1024 ^ k — Python formats the exact binary value of the float with
correct rounding. -/
def fmt2 (n k : Nat) : String :=
  let N := 100 * n
  let D := 1024 ^ k
  let q := N / D
  let r := N % D
  let m := if 2 * r < D then q else if D < 2 * r then q + 1 else if q % 2 = 0 then q else q + 1
  let frac := m % 100
  toString (m / 100) ++ "." ++ (if frac < 10 then "0" ++ toString frac else toString frac)

/-- Number of binary digits of n (0 for 0).  The first argument is fuel
making the recursion structural; any fuel at least n suffices. -/
def bitsAux : Nat → Nat → Nat
  | 0, _ => 0
  | fuel + 1, n => if n = 0 then 0 else bitsAux fuel (n / 2) + 1

/-- Number of binary digits of n. -/
def natBits (n : Nat) : Nat :=
  bitsAux n n

/-- Round n to a multiple of 2 ^ e, half to even. -/
def pyRound (n e : Nat) : Nat :=
  (if 2 * (n % 2 ^ e) < 2 ^ e then n / 2 ^ e
   else if 2 ^ e < 2 * (n % 2 ^ e) then n / 2 ^ e + 1
   else if (n / 2 ^ e) % 2 = 0 then n / 2 ^ e else n / 2 ^ e + 1) * 2 ^ e

/-- CPython's int-to-float conversion (`PyLong_AsDouble`), given as the
exact integer value of the resulting double: an integer below 2 ^ 53 is
exactly representable; a larger one is rounded half to even to 53
significant bits (the result is still an integer because its unit in the
last place is at least 2).  The conversion raises OverflowError when this
value reaches 2 ^ 1024; `format_size` checks that bound where the
conversion happens. -/
def pyFloat (n : Nat) : Nat :=
  if n < 2 ^ 53 then n else pyRound n (natBits n - 53)

/-- The iterations of the `format_size` loop (lines 20-24) after the first
division: dividing a double by 1024.0 only shifts its exponent (no value
here is subnormal), so the float after k total divisions is exactly
`pyFloat n / 1024 ^ k`, represented by the pair (pyFloat n, k), and the
float comparison `value < 1024.0` is exactly `pyFloat n < 1024 ^ (k+1)`. -/
def formatSizeAux : Nat → Nat → List String → String
  | n, k, [] => fmt2 n k ++ " PB"
  | n, k, u :: units2 =>
    if n < 1024 ^ (k + 1) then fmt2 n k ++ " " ++ u else formatSizeAux n (k + 1) units2

/-- `format_size` (lines 18-24) on a non-negative integer byte count.
CPython runs the first loop test `size_bytes < 1024.0` on the exact
integer (int-to-float comparison is exact and cannot overflow); when the
test fails, the first division `size_bytes /= 1024.0` converts the integer
to a double — rounding it to 53 significant bits (`pyFloat`), or raising
OverflowError when the rounded value reaches 2 ^ 1024 — and the remaining
iterations run on the converted value.  An `Except.error` result models
the uncaught OverflowError propagating out of `format_size`. -/
def format_size (size_bytes : Nat) : Except String String :=
  if size_bytes < 1024 then Except.ok (fmt2 size_bytes 0 ++ " B")
  else if pyFloat size_bytes < 2 ^ 1024 then
    Except.ok (formatSizeAux (pyFloat size_bytes) 1 ["KB", "MB", "GB", "TB"])
  else Except.error "OverflowError: int too large to convert to float"

/-- Python whitespace stripped by `int(str)`. -/
def isPySpace (c : Char) : Bool :=
  c = ' ' || c = '\t' || c = '\n' || c = '\r' || c = '\x0b' || c = '\x0c'

/-- Strip leading and trailing whitespace. -/
def stripPySpaces (cs : List Char) : List Char :=
  ((cs.dropWhile isPySpace).reverse.dropWhile isPySpace).reverse

/-- Digit run with optional single underscores between digits, as accepted
by Python's `int` literal syntax. -/
def pyDigitsAux : Nat → List Char → Option Nat
  | acc, [] => some acc
  | acc, '_' :: c :: rest =>
    if c.isDigit then pyDigitsAux (acc * 10 + (c.toNat - 48)) rest else none
  | acc, c :: rest =>
    if c.isDigit then pyDigitsAux (acc * 10 + (c.toNat - 48)) rest else none

/-- Parse a non-empty ASCII digit run (with underscore separators). -/
def pyDigits : List Char → Option Nat
  | [] => none
  | c :: rest => if c.isDigit then pyDigitsAux (c.toNat - 48) rest else none

/-- Models `int(s)` for ASCII strings: optional surrounding whitespace, an
optional sign, then a non-empty digit run; anything else raises
`ValueError`, modelled as `none`.  Note that a leading `-` is accepted:
`int("-5")` is `-5`, not an error. -/
def pyInt (s : String) : Option Int :=
  match stripPySpaces s.data with
  | '+' :: rest => (pyDigits rest).map (fun n => (n : Int))
  | '-' :: rest => (pyDigits rest).map (fun n => -(n : Int))
  | rest => (pyDigits rest).map (fun n => (n : Int))

/-- The option-parsing loop of `main` (lines 185-198): `--ext` with a
following token consumes it as the filter value; `--min-size` with a
following token parses it with `int`, exiting with an error message on
`ValueError`; every other token (including a trailing flag with no
following value) just advances the index. -/
def parseOpts : List String → Option String → Option Int →
    Except String (Option String × Option Int)
  | [], fe, ms => Except.ok (fe, ms)
  | [_], fe, ms => Except.ok (fe, ms)
  | a :: v :: rest, fe, ms =>
    if a = "--ext" then parseOpts rest (some v) ms
    else if a = "--min-size" then
      match pyInt v with
      | some k => parseOpts rest fe (some k)
      | none => Except.error ("Error: Invalid size value '" ++ v ++ "'")
    else parseOpts (v :: rest) fe ms

/-- The argument handling of `main` (lines 173-198): fewer than two tokens
in `sys.argv` prints the usage text and exits; otherwise `argv[1]` is the
folder path and the remaining tokens go through the option loop.  An
`Except.error` result models printing the message and exiting non-zero
before any scanning; `Except.ok` models proceeding to `scan_folder`. -/
def parse_main_args (argv : List String) :
    Except String (String × Option String × Option Int) :=
  match argv with
  | _ :: folder_path :: rest =>
    (match parseOpts rest none none with
     | Except.ok (fe, ms) => Except.ok (folder_path, fe, ms)
     | Except.error msg => Except.error msg)
  | _ => Except.error "Usage: python3 folder_scanner.py <folder_path> [OPTIONS]"

/-! ## Helper lemmas: the loop body -/

theorem processEntry_not_file (fe : Option String) (ms : Option Int) (st : ScanState)
    {e : Entry} (h : e.isFile = false) : processEntry fe ms st e = st := by
  simp [processEntry, h]

theorem processEntry_error (fe : Option String) (ms : Option Int) (st : ScanState)
    {e : Entry} {msg : String} (hf : e.isFile = true) (hs : e.stat = Except.error msg) :
    processEntry fe ms st e =
      { st with warnings :=
          st.warnings ++ ["Warning: Could not access " ++ e.path ++ ": " ++ msg] } := by
  simp [processEntry, hf, hs]

theorem processEntry_ok (fe : Option String) (ms : Option Int) (st : ScanState)
    {e : Entry} {s : Nat} (hf : e.isFile = true) (hs : e.stat = Except.ok s) :
    processEntry fe ms st e = if counted fe ms e then updateCounted st e s else st := by
  by_cases h1 : extSkips fe (entryExtension e.name) = true <;>
    by_cases h2 : sizeSkips ms s = true <;>
    simp [processEntry, counted, hf, hs, h1, h2]

theorem counted_stat {fe : Option String} {ms : Option Int} {e : Entry}
    (h : counted fe ms e = true) : e.stat = Except.ok (statSize e) := by
  unfold counted at h
  cases hs : e.stat with
  | ok s => simp [statSize, hs]
  | error msg => simp [hs] at h

theorem updateCounted_totalFiles (st : ScanState) (e : Entry) (s : Nat) :
    (updateCounted st e s).totalFiles = st.totalFiles + 1 := by
  unfold updateCounted; split <;> rfl

theorem updateCounted_totalSize (st : ScanState) (e : Entry) (s : Nat) :
    (updateCounted st e s).totalSize = st.totalSize + s := by
  unfold updateCounted; split <;> rfl

theorem updateCounted_fileTypes (st : ScanState) (e : Entry) (s : Nat) :
    (updateCounted st e s).fileTypes = bump st.fileTypes (entryExtension e.name) 1 := by
  unfold updateCounted; split <;> rfl

theorem updateCounted_fileTypeSizes (st : ScanState) (e : Entry) (s : Nat) :
    (updateCounted st e s).fileTypeSizes = bump st.fileTypeSizes (entryExtension e.name) s := by
  unfold updateCounted; split <;> rfl

theorem updateCounted_warnings (st : ScanState) (e : Entry) (s : Nat) :
    (updateCounted st e s).warnings = st.warnings := by
  unfold updateCounted; split <;> rfl

theorem updateCounted_largestSize (st : ScanState) (e : Entry) (s : Nat) :
    (updateCounted st e s).largestSize = if st.largestSize < s then s else st.largestSize := by
  unfold updateCounted; split <;> simp [*]

theorem updateCounted_largestFile (st : ScanState) (e : Entry) (s : Nat) :
    (updateCounted st e s).largestFile = if st.largestSize < s then some e else st.largestFile := by
  unfold updateCounted; split <;> simp [*]

theorem processEntry_totalFiles (fe : Option String) (ms : Option Int) (st : ScanState)
    (e : Entry) :
    (processEntry fe ms st e).totalFiles
      = st.totalFiles + (if counted fe ms e then 1 else 0) := by
  cases hf : e.isFile with
  | false => rw [processEntry_not_file _ _ _ hf]; simp [counted, hf]
  | true =>
    cases hs : e.stat with
    | error msg => rw [processEntry_error _ _ _ hf hs]; simp [counted, hf, hs]
    | ok s =>
      rw [processEntry_ok _ _ _ hf hs]
      by_cases hc : counted fe ms e = true <;> simp [hc, updateCounted_totalFiles]

theorem processEntry_totalSize (fe : Option String) (ms : Option Int) (st : ScanState)
    (e : Entry) :
    (processEntry fe ms st e).totalSize
      = st.totalSize + (if counted fe ms e then statSize e else 0) := by
  cases hf : e.isFile with
  | false => rw [processEntry_not_file _ _ _ hf]; simp [counted, hf]
  | true =>
    cases hs : e.stat with
    | error msg => rw [processEntry_error _ _ _ hf hs]; simp [counted, hf, hs]
    | ok s =>
      rw [processEntry_ok _ _ _ hf hs]
      by_cases hc : counted fe ms e = true <;>
        simp [hc, updateCounted_totalSize, statSize, hs]

theorem processEntry_fileTypes (fe : Option String) (ms : Option Int) (st : ScanState)
    (e : Entry) :
    (processEntry fe ms st e).fileTypes
      = if counted fe ms e then bump st.fileTypes (entryExtension e.name) 1
        else st.fileTypes := by
  cases hf : e.isFile with
  | false => rw [processEntry_not_file _ _ _ hf]; simp [counted, hf]
  | true =>
    cases hs : e.stat with
    | error msg => rw [processEntry_error _ _ _ hf hs]; simp [counted, hf, hs]
    | ok s =>
      rw [processEntry_ok _ _ _ hf hs]
      by_cases hc : counted fe ms e = true <;> simp [hc, updateCounted_fileTypes]

theorem processEntry_fileTypeSizes (fe : Option String) (ms : Option Int) (st : ScanState)
    (e : Entry) :
    (processEntry fe ms st e).fileTypeSizes
      = if counted fe ms e then bump st.fileTypeSizes (entryExtension e.name) (statSize e)
        else st.fileTypeSizes := by
  cases hf : e.isFile with
  | false => rw [processEntry_not_file _ _ _ hf]; simp [counted, hf]
  | true =>
    cases hs : e.stat with
    | error msg => rw [processEntry_error _ _ _ hf hs]; simp [counted, hf, hs]
    | ok s =>
      rw [processEntry_ok _ _ _ hf hs]
      by_cases hc : counted fe ms e = true <;>
        simp [hc, updateCounted_fileTypeSizes, statSize, hs]

theorem processEntry_largestSize (fe : Option String) (ms : Option Int) (st : ScanState)
    (e : Entry) :
    (processEntry fe ms st e).largestSize
      = if counted fe ms e ∧ st.largestSize < statSize e then statSize e
        else st.largestSize := by
  cases hf : e.isFile with
  | false => rw [processEntry_not_file _ _ _ hf]; simp [counted, hf]
  | true =>
    cases hs : e.stat with
    | error msg => rw [processEntry_error _ _ _ hf hs]; simp [counted, hf, hs]
    | ok s =>
      rw [processEntry_ok _ _ _ hf hs]
      by_cases hc : counted fe ms e = true <;>
        simp [hc, updateCounted_largestSize, statSize, hs]

theorem processEntry_largestFile (fe : Option String) (ms : Option Int) (st : ScanState)
    (e : Entry) :
    (processEntry fe ms st e).largestFile
      = if counted fe ms e ∧ st.largestSize < statSize e then some e
        else st.largestFile := by
  cases hf : e.isFile with
  | false => rw [processEntry_not_file _ _ _ hf]; simp [counted, hf]
  | true =>
    cases hs : e.stat with
    | error msg => rw [processEntry_error _ _ _ hf hs]; simp [counted, hf, hs]
    | ok s =>
      rw [processEntry_ok _ _ _ hf hs]
      by_cases hc : counted fe ms e = true <;>
        simp [hc, updateCounted_largestFile, statSize, hs]

/-! ## Helper lemmas: folding the loop over the traversal -/

theorem ite_lt_eq_max (a b : Nat) : (if a < b then b else a) = max a b := by
  rcases Nat.lt_or_ge a b with h | h
  · simp [h, Nat.max_eq_right h.le]
  · simp [Nat.not_lt.mpr h, Nat.max_eq_left h]

theorem foldl_totalFiles (fe : Option String) (ms : Option Int) (l : List Entry) :
    ∀ st : ScanState,
      (l.foldl (processEntry fe ms) st).totalFiles
        = st.totalFiles + l.countP (counted fe ms) := by
  induction l with
  | nil => intro st; simp
  | cons e l ih =>
    intro st
    rw [List.foldl_cons, ih, processEntry_totalFiles, List.countP_cons]
    by_cases hc : counted fe ms e = true <;> simp [hc] <;> omega

theorem foldl_totalSize (fe : Option String) (ms : Option Int) (l : List Entry) :
    ∀ st : ScanState,
      (l.foldl (processEntry fe ms) st).totalSize
        = st.totalSize + ((l.filter (counted fe ms)).map statSize).sum := by
  induction l with
  | nil => intro st; simp
  | cons e l ih =>
    intro st
    rw [List.foldl_cons, ih, processEntry_totalSize, List.filter_cons]
    by_cases hc : counted fe ms e = true <;> simp [hc] <;> omega

theorem sumVals_bump (l : List (String × Nat)) (k : String) (v : Nat) :
    sumVals (bump l k v) = sumVals l + v := by
  induction l with
  | nil => simp [bump, sumVals]
  | cons p rest ih =>
    obtain ⟨k2, v2⟩ := p
    by_cases h : k2 = k <;> simp [bump, h, sumVals] at ih ⊢ <;> omega

theorem foldl_fileTypes_sum (fe : Option String) (ms : Option Int) (l : List Entry) :
    ∀ st : ScanState,
      sumVals (l.foldl (processEntry fe ms) st).fileTypes
        = sumVals st.fileTypes + l.countP (counted fe ms) := by
  induction l with
  | nil => intro st; simp
  | cons e l ih =>
    intro st
    rw [List.foldl_cons, ih, processEntry_fileTypes, List.countP_cons]
    by_cases hc : counted fe ms e = true <;> simp [hc, sumVals_bump] <;> omega

theorem foldl_fileTypeSizes_sum (fe : Option String) (ms : Option Int) (l : List Entry) :
    ∀ st : ScanState,
      sumVals (l.foldl (processEntry fe ms) st).fileTypeSizes
        = sumVals st.fileTypeSizes + ((l.filter (counted fe ms)).map statSize).sum := by
  induction l with
  | nil => intro st; simp
  | cons e l ih =>
    intro st
    rw [List.foldl_cons, ih, processEntry_fileTypeSizes, List.filter_cons]
    by_cases hc : counted fe ms e = true <;> simp [hc, sumVals_bump] <;> omega

theorem foldl_largest (fe : Option String) (ms : Option Int) (l : List Entry) :
    ∀ st : ScanState,
      (l.foldl (processEntry fe ms) st).largestSize
        = max st.largestSize (maxStat (l.filter (counted fe ms))) ∧
      (l.foldl (processEntry fe ms) st).largestFile
        = (if st.largestSize < maxStat (l.filter (counted fe ms))
           then (l.filter (counted fe ms)).find?
                  (fun e2 => statSize e2 == maxStat (l.filter (counted fe ms)))
           else st.largestFile) := by
  induction l with
  | nil => intro st; simp [maxStat]
  | cons e l ih =>
    intro st
    rw [List.foldl_cons]
    obtain ⟨ih1, ih2⟩ := ih (processEntry fe ms st e)
    by_cases hc : counted fe ms e = true
    · have hfilter : (e :: l).filter (counted fe ms) = e :: l.filter (counted fe ms) := by
        simp [List.filter_cons, hc]
      rw [hfilter, ih1, ih2, processEntry_largestSize, processEntry_largestFile]
      have hM : maxStat (e :: l.filter (counted fe ms))
          = max (statSize e) (maxStat (l.filter (counted fe ms))) := rfl
      rw [hM]
      simp only [hc, true_and]
      rw [ite_lt_eq_max]
      set L := st.largestSize with hL
      set s := statSize e with hs
      set M := maxStat (l.filter (counted fe ms)) with hMd
      constructor
      · rw [Nat.max_assoc]
      · rcases Nat.lt_or_ge s M with hsM | hMs
        · have hne : (s == M) = false := by simp [Nat.ne_of_lt hsM]
          rw [List.find?_cons, Nat.max_eq_right hsM.le, hne]
          rcases Nat.lt_or_ge L M with hLM | hML
          · rw [if_pos hLM, if_pos (by omega : max L s < M)]
          · rw [if_neg (by omega : ¬ L < M), if_neg (by omega : ¬ max L s < M),
              if_neg (by omega : ¬ L < s)]
        · have heq : (s == max s M) = true := by simp [Nat.max_eq_left hMs]
          rw [List.find?_cons, heq]
          rcases Nat.lt_or_ge L s with hLs | hsL
          · rw [if_pos (by omega : L < max s M),
              if_neg (by omega : ¬ max L s < M), if_pos hLs]
          · rw [if_neg (by omega : ¬ L < max s M),
              if_neg (by omega : ¬ max L s < M), if_neg (by omega : ¬ L < s)]
    · have hfilter : (e :: l).filter (counted fe ms) = l.filter (counted fe ms) := by
        simp [List.filter_cons, hc]
      rw [hfilter, ih1, ih2, processEntry_largestSize, processEntry_largestFile]
      simp [hc]

theorem le_maxStat {e : Entry} {l : List Entry} (h : e ∈ l) : statSize e ≤ maxStat l := by
  induction l with
  | nil => cases h
  | cons a l ih =>
    rcases List.mem_cons.mp h with rfl | hm
    · exact Nat.le_max_left _ _
    · exact Nat.le_trans (ih hm) (Nat.le_max_right _ _)

theorem maxStat_attained {l : List Entry} (h : 0 < maxStat l) :
    ∃ e ∈ l, statSize e = maxStat l := by
  induction l with
  | nil => simp [maxStat] at h
  | cons a l ih =>
    have hcons : maxStat (a :: l) = max (statSize a) (maxStat l) := rfl
    rcases Nat.le_total (maxStat l) (statSize a) with hle | hge
    · exact ⟨a, List.mem_cons_self a l, by rw [hcons, Nat.max_eq_left hle]⟩
    · have hM : maxStat (a :: l) = maxStat l := by rw [hcons, Nat.max_eq_right hge]
      obtain ⟨e2, hm, he⟩ := ih (by omega)
      exact ⟨e2, List.mem_cons_of_mem _ hm, by rw [he, hM]⟩

/-! ## Claim theorems -/

/-- C1: for every directory tree (traversal entry list, all of whose
metadata queries succeed) and every filter setting, the scan's
`total_files` is the number of regular files that both filters (as
interpreted by the program) let through, and `total_size` is the exact sum
of their sizes. -/
theorem claim_C1_totals (entries : List Entry) (filter_extension : Option String)
    (min_size : Option Int)
    (h : ∀ e ∈ entries, Except.isOk e.stat = true) :
    (scan_folder entries filter_extension min_size).totalFiles
      = entries.countP (passesFilters (normalize_filter filter_extension) min_size) ∧
    (scan_folder entries filter_extension min_size).totalSize
      = ((entries.filter
            (passesFilters (normalize_filter filter_extension) min_size)).map statSize).sum := by
  have hpc : ∀ e ∈ entries,
      counted (normalize_filter filter_extension) min_size e
        = passesFilters (normalize_filter filter_extension) min_size e := by
    intro e he
    have hok := h e he
    cases hs : e.stat with
    | ok s => simp [counted, passesFilters, statSize, hs, Bool.and_assoc]
    | error msg => simp [hs, Except.isOk, Except.toBool] at hok
  have hpc2 : ∀ e ∈ entries,
      (counted (normalize_filter filter_extension) min_size e = true
        ↔ passesFilters (normalize_filter filter_extension) min_size e = true) := by
    intro e he; rw [hpc e he]
  constructor
  · rw [scan_folder, foldl_totalFiles, List.countP_congr hpc2]
    simp [initState]
  · rw [scan_folder, foldl_totalSize, List.filter_congr hpc]
    simp [initState]

theorem claim_C1_totals_witness :
    (scan_folder [⟨"a.txt", "r/a.txt", true, Except.ok 10⟩,
        ⟨"sub", "r/sub", false, Except.ok 0⟩] none none).totalFiles
      = ([⟨"a.txt", "r/a.txt", true, Except.ok 10⟩,
          ⟨"sub", "r/sub", false, Except.ok 0⟩] : List Entry).countP
          (passesFilters (normalize_filter none) none) ∧
    (scan_folder [⟨"a.txt", "r/a.txt", true, Except.ok 10⟩,
        ⟨"sub", "r/sub", false, Except.ok 0⟩] none none).totalSize
      = ((([⟨"a.txt", "r/a.txt", true, Except.ok 10⟩,
           ⟨"sub", "r/sub", false, Except.ok 0⟩] : List Entry).filter
            (passesFilters (normalize_filter none) none)).map statSize).sum :=
  claim_C1_totals _ none none (by decide)

/-- C2: for every scan result, `total_files` equals the sum of the
per-extension counts in `file_types`, and `total_size` equals the sum of
the per-extension totals in `file_type_sizes` (the embedding scans a fixed
entry list, i.e. a filesystem that does not change mid-scan). -/
theorem claim_C2_invariant (entries : List Entry) (filter_extension : Option String)
    (min_size : Option Int) :
    (scan_folder entries filter_extension min_size).totalFiles
      = sumVals (scan_folder entries filter_extension min_size).fileTypes ∧
    (scan_folder entries filter_extension min_size).totalSize
      = sumVals (scan_folder entries filter_extension min_size).fileTypeSizes := by
  constructor
  · rw [scan_folder, foldl_totalFiles, foldl_fileTypes_sum]
    simp [initState, sumVals]
  · rw [scan_folder, foldl_totalSize, foldl_fileTypeSizes_sum]
    simp [initState, sumVals]

/-- C5: a positive `--min-size` threshold m excludes a file exactly when
its size is strictly below m (so a file of exactly size m is kept), and a
threshold of 0 makes the whole scan behave exactly as if no size filter had
been given. -/
theorem claim_C5_min_size :
    (∀ m : Int, 0 < m → ∀ file_size : Nat,
        (sizeSkips (some m) file_size = true ↔ (file_size : Int) < m)) ∧
    (∀ m : Int, 0 < m → sizeSkips (some m) m.toNat = false) ∧
    (∀ (entries : List Entry) (fe : Option String),
        scan_folder entries fe (some 0) = scan_folder entries fe none) := by
  refine ⟨?_, ?_, ?_⟩
  · intro m hm s
    simp only [sizeSkips, Bool.and_eq_true, bne_iff_ne, ne_eq, decide_eq_true_eq]
    omega
  · intro m hm
    simp [sizeSkips, Int.toNat_of_nonneg hm.le]
  · intro entries fe
    have hstep : processEntry (normalize_filter fe) (some 0)
        = processEntry (normalize_filter fe) none := by
      funext st e
      have hsz : sizeSkips (some 0) = sizeSkips none := by
        funext s; simp [sizeSkips]
      unfold processEntry
      rw [hsz]
    rw [scan_folder, scan_folder, hstep]

theorem claim_C5_min_size_witness :
    (sizeSkips (some 4) 2 = true ↔ ((2 : Nat) : Int) < 4) ∧
    (sizeSkips (some 4) (4 : Int).toNat = false) ∧
    scan_folder [] none (some 0) = scan_folder [] none none :=
  ⟨claim_C5_min_size.1 4 (by decide) 2, claim_C5_min_size.2.1 4 (by decide),
    claim_C5_min_size.2.2 [] none⟩

/-- C3 counterexample: a single zero-byte file passes the filters (so at
least one file passed), yet `largest_file` remains `None`, because the
strict `file_size > largest_size` comparison never fires against the
initial `largest_size = 0`. -/
theorem claim_C3_counterexample :
    (scan_folder [⟨"a.txt", "r/a.txt", true, Except.ok 0⟩] none none).totalFiles = 1 ∧
    (scan_folder [⟨"a.txt", "r/a.txt", true, Except.ok 0⟩] none none).largestFile = none := by
  decide

/-- C3 (amended): whenever some counted file has positive size,
`largest_file` is present, it is the first counted file (in traversal
order) whose size attains the maximum over all counted files — so ties
keep the first one encountered — and `largest_size` is that maximum.
(When every counted file has size 0 the largest file is absent even though
files passed the filters.) -/
theorem claim_C3_largest (entries : List Entry) (filter_extension : Option String)
    (min_size : Option Int)
    (h : ∃ e ∈ entries.filter (counted (normalize_filter filter_extension) min_size),
          0 < statSize e) :
    (scan_folder entries filter_extension min_size).largestFile
      = (entries.filter (counted (normalize_filter filter_extension) min_size)).find?
          (fun e2 => statSize e2
            == maxStat (entries.filter (counted (normalize_filter filter_extension) min_size))) ∧
    (scan_folder entries filter_extension min_size).largestSize
      = maxStat (entries.filter (counted (normalize_filter filter_extension) min_size)) ∧
    ∃ e0, (scan_folder entries filter_extension min_size).largestFile = some e0 ∧
      statSize e0
        = maxStat (entries.filter (counted (normalize_filter filter_extension) min_size)) := by
  obtain ⟨ew, hmem, hpos⟩ := h
  have hMpos : 0 < maxStat (entries.filter (counted (normalize_filter filter_extension) min_size)) :=
    lt_of_lt_of_le hpos (le_maxStat hmem)
  obtain ⟨h1, h2⟩ := foldl_largest (normalize_filter filter_extension) min_size entries initState
  have hscan : scan_folder entries filter_extension min_size
      = entries.foldl (processEntry (normalize_filter filter_extension) min_size) initState := rfl
  have hLF : (scan_folder entries filter_extension min_size).largestFile
      = (entries.filter (counted (normalize_filter filter_extension) min_size)).find?
          (fun e2 => statSize e2
            == maxStat (entries.filter (counted (normalize_filter filter_extension) min_size))) := by
    rw [hscan, h2,
      if_pos (show initState.largestSize
        < maxStat (entries.filter (counted (normalize_filter filter_extension) min_size))
        from hMpos)]
  refine ⟨hLF, ?_, ?_⟩
  · rw [hscan, h1]
    exact Nat.zero_max _
  · obtain ⟨e0, hm0, he0⟩ := maxStat_attained hMpos
    have hex : ∃ x ∈ entries.filter (counted (normalize_filter filter_extension) min_size),
        (statSize x
          == maxStat (entries.filter (counted (normalize_filter filter_extension) min_size)))
          = true := ⟨e0, hm0, by simp [he0]⟩
    obtain ⟨e1, he1⟩ := Option.isSome_iff_exists.mp (List.find?_isSome.mpr hex)
    have hp := List.find?_some he1
    exact ⟨e1, by rw [hLF, he1], by simpa using hp⟩

theorem claim_C3_largest_witness :
    (scan_folder [⟨"a.txt", "r/a.txt", true, Except.ok 5⟩,
        ⟨"b.txt", "r/b.txt", true, Except.ok 5⟩] none none).largestFile
      = List.find?
          (fun e2 => statSize e2
            == maxStat (List.filter (counted (normalize_filter none) none)
                [⟨"a.txt", "r/a.txt", true, Except.ok 5⟩,
                 ⟨"b.txt", "r/b.txt", true, Except.ok 5⟩]))
          (List.filter (counted (normalize_filter none) none)
            [⟨"a.txt", "r/a.txt", true, Except.ok 5⟩,
             ⟨"b.txt", "r/b.txt", true, Except.ok 5⟩]) :=
  (claim_C3_largest [⟨"a.txt", "r/a.txt", true, Except.ok 5⟩,
      ⟨"b.txt", "r/b.txt", true, Except.ok 5⟩] none none (by decide)).1

/-! ## Warning-insensitivity of the accumulators -/

theorem accumulators_processEntry_congr (fe : Option String) (ms : Option Int)
    {st1 st2 : ScanState} (h : accumulators st1 = accumulators st2) (e : Entry) :
    accumulators (processEntry fe ms st1 e) = accumulators (processEntry fe ms st2 e) := by
  simp only [accumulators, Prod.mk.injEq] at h ⊢
  obtain ⟨h1, h2, h3, h4, h5, h6⟩ := h
  cases hfe : e.isFile with
  | false =>
    rw [processEntry_not_file _ _ _ hfe, processEntry_not_file _ _ _ hfe]
    exact ⟨h1, h2, h3, h4, h5, h6⟩
  | true =>
    cases hst : e.stat with
    | error msg =>
      rw [processEntry_error _ _ _ hfe hst, processEntry_error _ _ _ hfe hst]
      exact ⟨h1, h2, h3, h4, h5, h6⟩
    | ok s =>
      rw [processEntry_ok _ _ _ hfe hst, processEntry_ok _ _ _ hfe hst]
      by_cases hc : counted fe ms e = true
      · simp [hc, updateCounted_totalFiles, updateCounted_totalSize,
          updateCounted_largestSize, updateCounted_largestFile,
          updateCounted_fileTypes, updateCounted_fileTypeSizes, h1, h2, h3, h4, h5, h6]
      · simp [hc, h1, h2, h3, h4, h5, h6]

theorem accumulators_foldl_congr (fe : Option String) (ms : Option Int) (l : List Entry) :
    ∀ {st1 st2 : ScanState}, accumulators st1 = accumulators st2 →
      accumulators (l.foldl (processEntry fe ms) st1)
        = accumulators (l.foldl (processEntry fe ms) st2) := by
  induction l with
  | nil => intro st1 st2 h; simpa using h
  | cons e l ih =>
    intro st1 st2 h
    rw [List.foldl_cons, List.foldl_cons]
    exact ih (accumulators_processEntry_congr fe ms h e)

/-- C9: an entry whose metadata query fails with an OS-level error does not
abort the scan: the loop body only appends a warning naming the entry and
the underlying cause, every accumulator (`total_files`, `total_size`,
`largest_file`/`largest_size`, `file_types`, `file_type_sizes`) is left
unchanged by that entry, and the scan of any surrounding traversal
proceeds exactly as if the failing entry were absent. -/
theorem claim_C9_entry_error (fe : Option String) (ms : Option Int) (st : ScanState)
    {e : Entry} {msg : String} (hf : e.isFile = true) (hs : e.stat = Except.error msg) :
    processEntry fe ms st e
      = { st with warnings :=
          st.warnings ++ ["Warning: Could not access " ++ e.path ++ ": " ++ msg] } ∧
    ∀ (pre post : List Entry) (f : Option String) (m : Option Int),
      accumulators (scan_folder (pre ++ e :: post) f m)
        = accumulators (scan_folder (pre ++ post) f m) := by
  constructor
  · exact processEntry_error fe ms st hf hs
  · intro pre post f m
    rw [scan_folder, scan_folder, List.foldl_append, List.foldl_append, List.foldl_cons]
    apply accumulators_foldl_congr
    rw [processEntry_error _ _ _ hf hs]
    rfl

theorem claim_C9_entry_error_witness :
    processEntry none none initState
        ⟨"x.txt", "r/x.txt", true, Except.error "Permission denied"⟩
      = { initState with warnings := initState.warnings ++
          ["Warning: Could not access " ++ "r/x.txt" ++ ": " ++ "Permission denied"] } ∧
    accumulators (scan_folder
        ([] ++ (⟨"x.txt", "r/x.txt", true, Except.error "Permission denied"⟩ : Entry) :: [])
        none none)
      = accumulators (scan_folder ([] ++ []) none none) :=
  ⟨(claim_C9_entry_error none none initState rfl rfl).1,
   (claim_C9_entry_error none none initState rfl rfl).2 [] [] none none⟩

/-- C6 counterexample: the value `-5` for `--min-size` is parsed by
`int(...)` without error (a leading minus sign is accepted), so the
program neither prints an error nor exits: argument handling succeeds and
the scan proceeds with `min_size = -5`. -/
theorem claim_C6_counterexample :
    parse_main_args ["folder_scanner.py", "docs", "--min-size", "-5"]
      = Except.ok ("docs", none, some (-5)) := by
  decide

/-- C6 (amended): a `--min-size` value that `int(...)` cannot parse makes
the option loop stop with the `Invalid size value` error before any
scanning (an `Except.error` result models printing the message and exiting
non-zero without reaching `scan_folder`); but a value that parses as a
possibly negative integer — such as `-5` — is accepted silently, so
"does not parse as a non-negative integer" is not the failure condition. -/
theorem claim_C6_min_size_parse :
    (∀ (v : String) (rest : List String) (fe : Option String) (ms : Option Int),
        pyInt v = none →
        parseOpts ("--min-size" :: v :: rest) fe ms
          = Except.error ("Error: Invalid size value '" ++ v ++ "'")) ∧
    pyInt "-5" = some (-5) ∧
    parse_main_args ["folder_scanner.py", "docs", "--min-size", "-5"]
      = Except.ok ("docs", none, some (-5)) := by
  refine ⟨?_, by decide, by decide⟩
  intro v rest fe ms hv
  simp [parseOpts, hv]

theorem claim_C6_min_size_parse_witness :
    parseOpts ["--min-size", "12abc"] none none
      = Except.error ("Error: Invalid size value '" ++ "12abc" ++ "'") :=
  claim_C6_min_size_parse.1 "12abc" [] none none (by decide)

/-- C10: a token after the folder path that is neither `--ext` nor
`--min-size` is skipped silently (parsing the rest of the command line is
unchanged, nothing is printed, no exit), and a trailing `--ext` or
`--min-size` given as the final token with no following value is likewise
ignored: the loop ends successfully with the flags exactly as they were —
in particular still unset when the flag was never given a value. -/
theorem claim_C10_ignored_tokens :
    (∀ (t : String) (rest : List String) (fe : Option String) (ms : Option Int),
        t ≠ "--ext" → t ≠ "--min-size" →
        parseOpts (t :: rest) fe ms = parseOpts rest fe ms) ∧
    (∀ (fe : Option String) (ms : Option Int),
        parseOpts ["--ext"] fe ms = Except.ok (fe, ms) ∧
        parseOpts ["--min-size"] fe ms = Except.ok (fe, ms)) ∧
    parseOpts ["--ext"] none none = Except.ok (none, none) ∧
    parseOpts ["--min-size"] none none = Except.ok (none, none) := by
  refine ⟨?_, fun fe ms => ⟨rfl, rfl⟩, rfl, rfl⟩
  intro t rest fe ms h1 h2
  cases rest with
  | nil => rfl
  | cons v rest2 => simp [parseOpts, h1, h2]

theorem claim_C10_ignored_tokens_witness :
    parseOpts ["--verbose", "--ext", ".txt"] none none
      = parseOpts ["--ext", ".txt"] none none ∧
    parseOpts ["--ext"] (some ".md") (some 3) = Except.ok (some ".md", some 3) ∧
    parseOpts ["--min-size"] (some ".md") (some 3) = Except.ok (some ".md", some 3) :=
  ⟨claim_C10_ignored_tokens.1 "--verbose" ["--ext", ".txt"] none none
      (by decide) (by decide),
   (claim_C10_ignored_tokens.2.1 (some ".md") (some 3)).1,
   (claim_C10_ignored_tokens.2.1 (some ".md") (some 3)).2⟩

/-! ## Extension computation: characterizing `Path.suffix` -/

theorem rfindDot_eq_none {cs : List Char} (h : '.' ∉ cs) : rfindDot cs = none := by
  induction cs with
  | nil => rfl
  | cons c cs ih =>
    have hc : ¬ c = '.' := by
      intro he
      exact h (by rw [← he]; exact List.mem_cons_self c cs)
    have htail : '.' ∉ cs := fun hm => h (List.mem_cons_of_mem _ hm)
    simp [rfindDot, ih htail, hc]

theorem rfindDot_append_dot {post : List Char} (h : '.' ∉ post) (pre : List Char) :
    rfindDot (pre ++ '.' :: post) = some pre.length := by
  induction pre with
  | nil => simp [rfindDot, rfindDot_eq_none h]
  | cons c pre ih => simp [rfindDot, ih]

/-- C4 counterexample: `.bashrc` contains a dot yet is assigned the
sentinel (its `Path.suffix` is empty because the only dot is the first
character), and the extension assigned to `a.TXT` is `.txt` — the
lowercased suffix including the dot — not the bare substring `txt`
following the final dot. -/
theorem claim_C4_counterexample :
    entryExtension ".bashrc" = ".no-extension" ∧
    ('.' ∈ ".bashrc".data) ∧
    entryExtension "a.TXT" = ".txt" ∧
    entryExtension "a.TXT" ≠ "txt" := by
  refine ⟨by decide, by decide, by decide, by decide⟩

/-- C4 (amended): the extension assigned to a filename is the lowercase
substring starting at the final `.` (the dot included) whenever that final
dot is neither the first nor the last character of the name; in every
other case — no dot at all, a name whose only dot is its first character
(such as `.bashrc`), or a name ending in a dot — the sentinel
`.no-extension` is used, even though such a name may contain a dot. -/
theorem claim_C4_extension :
    (∀ cs : List Char, '.' ∉ cs → entryExtension (String.mk cs) = ".no-extension") ∧
    (∀ pre post : List Char, '.' ∉ post → pre ≠ [] → post ≠ [] →
        entryExtension (String.mk (pre ++ '.' :: post))
          = pyLower (String.mk ('.' :: post))) ∧
    (∀ post : List Char, '.' ∉ post →
        entryExtension (String.mk ('.' :: post)) = ".no-extension") ∧
    (∀ pre : List Char, entryExtension (String.mk (pre ++ ['.'])) = ".no-extension") := by
  refine ⟨?_, ?_, ?_, ?_⟩
  · intro cs h
    simp [entryExtension, pySuffix, rfindDot_eq_none h]
  · intro pre post hpost hpre hpost2
    have hr : rfindDot (pre ++ '.' :: post) = some pre.length := rfindDot_append_dot hpost pre
    have hcond : 0 < pre.length ∧ pre.length + 1 < (pre ++ '.' :: post).length := by
      constructor
      · exact List.length_pos.mpr hpre
      · have hp2 : 0 < post.length := List.length_pos.mpr hpost2
        simp [List.length_append]
        omega
    have hsfx : pySuffix (String.mk (pre ++ '.' :: post)) = String.mk ('.' :: post) := by
      simp only [pySuffix, hr, if_pos hcond]
      congr 1
      exact List.drop_left pre ('.' :: post)
    have hne : String.mk ('.' :: post) ≠ "" := by
      intro hcontra
      simp [String.ext_iff] at hcontra
    rw [entryExtension, hsfx, if_neg hne]
  · intro post h
    have hr : rfindDot (('.' :: post : List Char)) = some 0 :=
      rfindDot_append_dot h []
    simp [entryExtension, pySuffix, hr]
  · intro pre
    have hr : rfindDot (pre ++ ['.']) = some pre.length :=
      rfindDot_append_dot (by simp) pre
    have hlen : (pre ++ ['.']).length = pre.length + 1 := by simp
    simp [entryExtension, pySuffix, hr, hlen]

theorem claim_C4_extension_witness :
    entryExtension (String.mk ['a', 'b']) = ".no-extension" ∧
    entryExtension (String.mk (['a'] ++ '.' :: ['T', 'X', 'T']))
      = pyLower (String.mk ('.' :: ['T', 'X', 'T'])) :=
  ⟨claim_C4_extension.1 ['a', 'b'] (by decide),
   claim_C4_extension.2.1 ['a'] ['T', 'X', 'T'] (by decide) (by decide) (by decide)⟩

/-! ## The format_size loop, stage by stage -/

theorem pow1024_le_two_pow {k m : Nat} (h : 10 * k ≤ m) : (1024 : Nat) ^ k ≤ 2 ^ m := by
  calc (1024 : Nat) ^ k = (2 ^ 10) ^ k := by norm_num
  _ = 2 ^ (10 * k) := by rw [← pow_mul]
  _ ≤ 2 ^ m := Nat.pow_le_pow_right (by norm_num) h

theorem bitsAux_bounds :
    ∀ (fuel n : Nat), 0 < n → n ≤ fuel →
      2 ^ (bitsAux fuel n - 1) ≤ n ∧ n < 2 ^ bitsAux fuel n := by
  intro fuel
  induction fuel with
  | zero => intro n h1 h2; omega
  | succ fuel ih =>
    intro n h1 h2
    rw [bitsAux, if_neg (by omega : ¬ n = 0)]
    rcases Nat.lt_or_ge n 2 with hn1 | hn2
    · have hn : n = 1 := by omega
      subst hn
      have h0 : bitsAux fuel (1 / 2) = 0 := by cases fuel <;> rfl
      rw [h0]
      norm_num
    · have hhalf : 0 < n / 2 := Nat.div_pos (by omega) (by omega)
      have hle : n / 2 ≤ fuel := by omega
      obtain ⟨hl, hu⟩ := ih (n / 2) hhalf hle
      have hb1 : 1 ≤ bitsAux fuel (n / 2) := by
        rcases Nat.eq_zero_or_pos (bitsAux fuel (n / 2)) with hb0 | hb0
        · rw [hb0] at hu; norm_num at hu; omega
        · exact hb0
      have h5 : bitsAux fuel (n / 2) + 1 - 1 = bitsAux fuel (n / 2) := by omega
      rw [h5]
      have hB : (2 : Nat) ^ bitsAux fuel (n / 2) = 2 * 2 ^ (bitsAux fuel (n / 2) - 1) := by
        conv_lhs => rw [show bitsAux fuel (n / 2) = bitsAux fuel (n / 2) - 1 + 1 by omega]
        rw [pow_succ]
        ring
      have hC : (2 : Nat) ^ (bitsAux fuel (n / 2) + 1) = 2 * 2 ^ bitsAux fuel (n / 2) := by
        rw [pow_succ]; ring
      omega

theorem natBits_bounds {n : Nat} (h : 0 < n) :
    2 ^ (natBits n - 1) ≤ n ∧ n < 2 ^ natBits n :=
  bitsAux_bounds n n h (Nat.le_refl n)

theorem pyRound_ge (n e : Nat) : n / 2 ^ e * 2 ^ e ≤ pyRound n e := by
  rw [pyRound]
  have hm : n / 2 ^ e ≤
      (if 2 * (n % 2 ^ e) < 2 ^ e then n / 2 ^ e
       else if 2 ^ e < 2 * (n % 2 ^ e) then n / 2 ^ e + 1
       else if (n / 2 ^ e) % 2 = 0 then n / 2 ^ e else n / 2 ^ e + 1) := by
    split
    · exact Nat.le_refl _
    · split
      · omega
      · split <;> omega
  exact Nat.mul_le_mul_right _ hm

theorem pyFloat_small {n : Nat} (h : n < 2 ^ 53) : pyFloat n = n := by
  rw [pyFloat, if_pos h]

theorem pyFloat_ge {n : Nat} (h : 2 ^ 53 ≤ n) : 2 ^ 53 ≤ pyFloat n := by
  have h0 : 0 < n := lt_of_lt_of_le (by norm_num) h
  obtain ⟨hl, hu⟩ := natBits_bounds h0
  have hb : 54 ≤ natBits n := by
    by_contra hb2
    push_neg at hb2
    have hp : (2 : Nat) ^ natBits n ≤ 2 ^ 53 :=
      Nat.pow_le_pow_right (by norm_num) (by omega)
    omega
  rw [pyFloat, if_neg (by omega : ¬ n < 2 ^ 53)]
  have he : 52 + (natBits n - 53) = natBits n - 1 := by omega
  have hq52 : 2 ^ 52 ≤ n / 2 ^ (natBits n - 53) := by
    rw [Nat.le_div_iff_mul_le (by positivity : (0 : Nat) < 2 ^ (natBits n - 53))]
    calc 2 ^ 52 * 2 ^ (natBits n - 53) = 2 ^ (52 + (natBits n - 53)) := by rw [pow_add]
    _ = 2 ^ (natBits n - 1) := by rw [he]
    _ ≤ n := hl
  calc (2 : Nat) ^ 53 ≤ 2 ^ (52 + (natBits n - 53)) :=
        Nat.pow_le_pow_right (by norm_num) (by omega)
  _ = 2 ^ 52 * 2 ^ (natBits n - 53) := by rw [pow_add]
  _ ≤ n / 2 ^ (natBits n - 53) * 2 ^ (natBits n - 53) :=
        Nat.mul_le_mul_right _ hq52
  _ ≤ pyRound n (natBits n - 53) := pyRound_ge n (natBits n - 53)

theorem pyFloat_ge_pb {n : Nat} (h : 1024 ^ 5 ≤ n) : 1024 ^ 5 ≤ pyFloat n := by
  by_cases h2 : n < 2 ^ 53
  · rw [pyFloat_small h2]; exact h
  · exact le_trans (pow1024_le_two_pow (by norm_num)) (pyFloat_ge (by omega))

theorem format_size_stage0 {n : Nat} (h : n < 1024) :
    format_size n = Except.ok (fmt2 n 0 ++ " B") := by
  rw [format_size, if_pos h]

theorem format_size_stage1 {n : Nat} (h1 : 1024 ≤ n) (h2 : n < 1024 ^ 2) :
    format_size n = Except.ok (fmt2 n 1 ++ " KB") := by
  have hfl : pyFloat n = n := pyFloat_small (lt_of_lt_of_le h2 (pow1024_le_two_pow (by norm_num)))
  rw [format_size, if_neg (Nat.not_lt.mpr h1), hfl,
    if_pos (lt_of_lt_of_le h2 (pow1024_le_two_pow (by norm_num))),
    formatSizeAux, if_pos (show n < 1024 ^ (1 + 1) from h2), String.append_assoc]
  rfl

theorem format_size_stage2 {n : Nat} (h1 : 1024 ^ 2 ≤ n) (h2 : n < 1024 ^ 3) :
    format_size n = Except.ok (fmt2 n 2 ++ " MB") := by
  have hfl : pyFloat n = n := pyFloat_small (lt_of_lt_of_le h2 (pow1024_le_two_pow (by norm_num)))
  rw [format_size, if_neg (Nat.not_lt.mpr (le_trans (by norm_num) h1)), hfl,
    if_pos (lt_of_lt_of_le h2 (pow1024_le_two_pow (by norm_num))),
    formatSizeAux, if_neg (show ¬ n < 1024 ^ (1 + 1) from Nat.not_lt.mpr h1),
    formatSizeAux, if_pos (show n < 1024 ^ (1 + 1 + 1) from h2), String.append_assoc]
  rfl

theorem format_size_stage3 {n : Nat} (h1 : 1024 ^ 3 ≤ n) (h2 : n < 1024 ^ 4) :
    format_size n = Except.ok (fmt2 n 3 ++ " GB") := by
  have hfl : pyFloat n = n := pyFloat_small (lt_of_lt_of_le h2 (pow1024_le_two_pow (by norm_num)))
  rw [format_size, if_neg (Nat.not_lt.mpr (le_trans (by norm_num) h1)), hfl,
    if_pos (lt_of_lt_of_le h2 (pow1024_le_two_pow (by norm_num))),
    formatSizeAux,
    if_neg (show ¬ n < 1024 ^ (1 + 1) from
      Nat.not_lt.mpr (le_trans (by norm_num) h1)),
    formatSizeAux, if_neg (show ¬ n < 1024 ^ (1 + 1 + 1) from Nat.not_lt.mpr h1),
    formatSizeAux, if_pos (show n < 1024 ^ (1 + 1 + 1 + 1) from h2),
    String.append_assoc]
  rfl

theorem format_size_stage4 {n : Nat} (h1 : 1024 ^ 4 ≤ n) (h2 : n < 1024 ^ 5) :
    format_size n = Except.ok (fmt2 n 4 ++ " TB") := by
  have hfl : pyFloat n = n := pyFloat_small (lt_of_lt_of_le h2 (pow1024_le_two_pow (by norm_num)))
  rw [format_size, if_neg (Nat.not_lt.mpr (le_trans (by norm_num) h1)), hfl,
    if_pos (lt_of_lt_of_le h2 (pow1024_le_two_pow (by norm_num))),
    formatSizeAux,
    if_neg (show ¬ n < 1024 ^ (1 + 1) from
      Nat.not_lt.mpr (le_trans (by norm_num) h1)),
    formatSizeAux,
    if_neg (show ¬ n < 1024 ^ (1 + 1 + 1) from
      Nat.not_lt.mpr (le_trans (by norm_num) h1)),
    formatSizeAux, if_neg (show ¬ n < 1024 ^ (1 + 1 + 1 + 1) from Nat.not_lt.mpr h1),
    formatSizeAux, if_pos (show n < 1024 ^ (1 + 1 + 1 + 1 + 1) from h2),
    String.append_assoc]
  rfl

theorem format_size_stage5 {n : Nat} (h1 : 1024 ^ 5 ≤ n) (h2 : pyFloat n < 2 ^ 1024) :
    format_size n = Except.ok (fmt2 (pyFloat n) 5 ++ " PB") := by
  have hp : 1024 ^ 5 ≤ pyFloat n := pyFloat_ge_pb h1
  rw [format_size, if_neg (Nat.not_lt.mpr (le_trans (by norm_num) h1)), if_pos h2,
    formatSizeAux,
    if_neg (show ¬ pyFloat n < 1024 ^ (1 + 1) from
      Nat.not_lt.mpr (le_trans (by norm_num) hp)),
    formatSizeAux,
    if_neg (show ¬ pyFloat n < 1024 ^ (1 + 1 + 1) from
      Nat.not_lt.mpr (le_trans (by norm_num) hp)),
    formatSizeAux,
    if_neg (show ¬ pyFloat n < 1024 ^ (1 + 1 + 1 + 1) from
      Nat.not_lt.mpr (le_trans (by norm_num) hp)),
    formatSizeAux,
    if_neg (show ¬ pyFloat n < 1024 ^ (1 + 1 + 1 + 1 + 1) from Nat.not_lt.mpr hp),
    formatSizeAux]

theorem format_size_overflow {n : Nat} (h1 : 1024 ≤ n) (h2 : 2 ^ 1024 ≤ pyFloat n) :
    format_size n = Except.error "OverflowError: int too large to convert to float" := by
  rw [format_size, if_neg (Nat.not_lt.mpr h1), if_neg (Nat.not_lt.mpr h2)]

/-- C7 counterexample: the formatter does not use PB for arbitrarily large
values — at 2 ^ 1024 bytes the int-to-float conversion at the first
division overflows and the program raises OverflowError instead of
rendering anything — and from 2 ^ 53 bytes up the printed digits are those
of the double nearest the byte count, not of the exact value:
9147936743096321 bytes prints "8.12 PB", although two-decimal rounding of
the exact scaled value 9147936743096321 / 1024 ^ 5 gives "8.13". -/
theorem claim_C7_counterexample :
    format_size (2 ^ 1024)
      = Except.error "OverflowError: int too large to convert to float" ∧
    format_size 9147936743096321 = Except.ok "8.12 PB" ∧
    fmt2 9147936743096321 5 = "8.13" := by
  refine ⟨by decide, by decide, by decide⟩

/-- C7 (amended): the loop's first test compares the exact byte count, and
the first division converts it to a double — exactly below 2 ^ 53, rounded
half to even to 53 significant bits above (`pyFloat`), raising
OverflowError instead of rendering once the rounded value reaches
2 ^ 1024.  Where it renders, `format_size` divides by 1024 while the value
is at least 1024, selects the unit in order B, KB, MB, GB, TB, renders the
scaled converted value with exactly two decimal places (round half to
even), and uses PB as the terminal unit for every large value below the
overflow bound; in particular 0 bytes renders as "0.00 B", 1024 as
"1.00 KB", 1536 as "1.50 KB", and 1048576 as "1.00 MB". -/
theorem claim_C7_format_size :
    format_size 0 = Except.ok "0.00 B" ∧
    format_size 1024 = Except.ok "1.00 KB" ∧
    format_size 1536 = Except.ok "1.50 KB" ∧
    format_size 1048576 = Except.ok "1.00 MB" ∧
    (∀ n : Nat, n < 1024 → format_size n = Except.ok (fmt2 n 0 ++ " B")) ∧
    (∀ n : Nat, 1024 ≤ n → n < 1024 ^ 2 →
        format_size n = Except.ok (fmt2 n 1 ++ " KB")) ∧
    (∀ n : Nat, 1024 ^ 2 ≤ n → n < 1024 ^ 3 →
        format_size n = Except.ok (fmt2 n 2 ++ " MB")) ∧
    (∀ n : Nat, 1024 ^ 3 ≤ n → n < 1024 ^ 4 →
        format_size n = Except.ok (fmt2 n 3 ++ " GB")) ∧
    (∀ n : Nat, 1024 ^ 4 ≤ n → n < 1024 ^ 5 →
        format_size n = Except.ok (fmt2 n 4 ++ " TB")) ∧
    (∀ n : Nat, 1024 ^ 5 ≤ n → pyFloat n < 2 ^ 1024 →
        format_size n = Except.ok (fmt2 (pyFloat n) 5 ++ " PB")) ∧
    (∀ n : Nat, 1024 ≤ n → 2 ^ 1024 ≤ pyFloat n →
        format_size n
          = Except.error "OverflowError: int too large to convert to float") :=
  ⟨by decide, by decide, by decide, by decide,
   fun _ h => format_size_stage0 h,
   fun _ h1 h2 => format_size_stage1 h1 h2,
   fun _ h1 h2 => format_size_stage2 h1 h2,
   fun _ h1 h2 => format_size_stage3 h1 h2,
   fun _ h1 h2 => format_size_stage4 h1 h2,
   fun _ h1 h2 => format_size_stage5 h1 h2,
   fun _ h1 h2 => format_size_overflow h1 h2⟩

theorem claim_C7_format_size_witness :
    format_size 2048 = Except.ok (fmt2 2048 1 ++ " KB") ∧
    format_size 1152921504606846976
      = Except.ok (fmt2 (pyFloat 1152921504606846976) 5 ++ " PB") :=
  ⟨claim_C7_format_size.2.2.2.2.2.1 2048 (by norm_num) (by norm_num),
   claim_C7_format_size.2.2.2.2.2.2.2.2.2.1 1152921504606846976
     (by norm_num) (by decide)⟩

/-! ## The breakdown table sort: descending by count, stable -/

theorem insertDesc_perm (x : String × Nat) (l : List (String × Nat)) :
    List.Perm (insertDesc x l) (x :: l) := by
  induction l with
  | nil => exact List.Perm.refl _
  | cons y ys ih =>
    by_cases h : x.2 < y.2
    · simp only [insertDesc, if_pos h]
      exact (ih.cons y).trans (List.Perm.swap x y ys)
    · simp only [insertDesc, if_neg h]
      exact List.Perm.refl _

theorem sortByCountDesc_perm (l : List (String × Nat)) :
    List.Perm (sortByCountDesc l) l := by
  induction l with
  | nil => exact List.Perm.refl _
  | cons x xs ih =>
    exact (insertDesc_perm x (sortByCountDesc xs)).trans (ih.cons x)

theorem insertDesc_pairwise {l : List (String × Nat)}
    (hl : List.Pairwise (fun a b => b.2 ≤ a.2) l) (x : String × Nat) :
    List.Pairwise (fun a b => b.2 ≤ a.2) (insertDesc x l) := by
  induction l with
  | nil => simp [insertDesc]
  | cons y ys ih =>
    obtain ⟨hy, hys⟩ := List.pairwise_cons.mp hl
    by_cases h : x.2 < y.2
    · simp only [insertDesc, if_pos h]
      refine List.pairwise_cons.mpr ⟨?_, ih hys⟩
      intro z hz
      rcases List.mem_cons.mp ((insertDesc_perm x ys).mem_iff.mp hz) with rfl | hz3
      · exact h.le
      · exact hy z hz3
    · simp only [insertDesc, if_neg h]
      refine List.pairwise_cons.mpr ⟨?_, hl⟩
      intro z hz
      rcases List.mem_cons.mp hz with rfl | hz2
      · exact Nat.le_of_not_lt h
      · exact le_trans (hy z hz2) (Nat.le_of_not_lt h)

theorem sortByCountDesc_pairwise (l : List (String × Nat)) :
    List.Pairwise (fun a b => b.2 ≤ a.2) (sortByCountDesc l) := by
  induction l with
  | nil => simp [sortByCountDesc]
  | cons x xs ih => exact insertDesc_pairwise ih x

theorem insertDesc_filter (x : String × Nat) (l : List (String × Nat)) (c : Nat) :
    (insertDesc x l).filter (fun p => p.2 == c)
      = (if x.2 == c then [x] else []) ++ l.filter (fun p => p.2 == c) := by
  induction l with
  | nil =>
    cases hx : x.2 == c <;> simp [insertDesc, List.filter_cons, hx]
  | cons y ys ih =>
    by_cases h : x.2 < y.2
    · simp only [insertDesc, if_pos h]
      cases hy : y.2 == c with
      | true =>
        have hx : (x.2 == c) = false := by
          simp only [beq_iff_eq] at hy
          simp only [beq_eq_false_iff_ne, ne_eq]
          omega
        simp [List.filter_cons, hy, hx, ih]
      | false =>
        simp [List.filter_cons, hy, ih]
    · simp only [insertDesc, if_neg h]
      cases hx : x.2 == c <;> simp [List.filter_cons, hx]

theorem sortByCountDesc_filter (l : List (String × Nat)) (c : Nat) :
    (sortByCountDesc l).filter (fun p => p.2 == c)
      = l.filter (fun p => p.2 == c) := by
  induction l with
  | nil => rfl
  | cons x xs ih =>
    simp only [sortByCountDesc]
    rw [insertDesc_filter, ih, List.filter_cons]
    cases hx : x.2 == c <;> simp [hx]

/-- C8: for a non-empty `file_types` mapping, the FILE TYPES BREAKDOWN
table has one row per extension (its (extension, count) projections are
exactly the sorted mapping, a permutation of the original), counts are
weakly decreasing down the table, and extensions with equal counts keep
their original insertion (traversal-discovery) order — the filtered
sub-list at any fixed count is unchanged by the sort. -/
theorem claim_C8_breakdown (ft fts : List (String × Nat)) (h : ft ≠ []) :
    breakdownRows ft fts ≠ [] ∧
    (breakdownRows ft fts).map (fun r => (r.1, r.2.1)) = sortByCountDesc ft ∧
    List.Perm (sortByCountDesc ft) ft ∧
    List.Pairwise (fun a b => b.2 ≤ a.2) (sortByCountDesc ft) ∧
    (∀ c : Nat, (sortByCountDesc ft).filter (fun p => p.2 == c)
        = ft.filter (fun p => p.2 == c)) := by
  refine ⟨?_, ?_, sortByCountDesc_perm ft, sortByCountDesc_pairwise ft,
    fun c => sortByCountDesc_filter ft c⟩
  · intro hempty
    have hlen : (sortByCountDesc ft).length = ft.length :=
      (sortByCountDesc_perm ft).length_eq
    have hnil : sortByCountDesc ft = [] := by
      simpa [breakdownRows] using hempty
    rw [hnil] at hlen
    exact h (List.length_eq_zero.mp hlen.symm)
  · unfold breakdownRows
    rw [List.map_map]
    have hcomp : ((fun r : String × Nat × Nat => (r.1, r.2.1))
        ∘ fun p : String × Nat => (p.1, p.2, dictGet fts p.1)) = id := by
      funext p; rfl
    rw [hcomp, List.map_id]

theorem claim_C8_breakdown_witness :
    breakdownRows [("a", 1), ("b", 2), ("c", 2)] [("a", 7), ("b", 8), ("c", 9)] ≠ [] ∧
    List.Perm (sortByCountDesc [("a", 1), ("b", 2), ("c", 2)]) [("a", 1), ("b", 2), ("c", 2)] ∧
    (sortByCountDesc [("a", 1), ("b", 2), ("c", 2)]).filter (fun p => p.2 == 2)
      = ([("a", 1), ("b", 2), ("c", 2)] : List (String × Nat)).filter (fun p => p.2 == 2) :=
  ⟨(claim_C8_breakdown [("a", 1), ("b", 2), ("c", 2)] [("a", 7), ("b", 8), ("c", 9)]
      (by decide)).1,
   (claim_C8_breakdown [("a", 1), ("b", 2), ("c", 2)] [("a", 7), ("b", 8), ("c", 9)]
      (by decide)).2.2.1,
   (claim_C8_breakdown [("a", 1), ("b", 2), ("c", 2)] [("a", 7), ("b", 8), ("c", 9)]
      (by decide)).2.2.2.2 2⟩

end FolderScanner
